import Mathlib

/-!
# Verification of `broad/find_similar_preds.py`

A shallow embedding of the core of `find_similar_preds.py`: the distance stage
(scipy `cdist`), the neighbor selection stage (`np.argsort(...)[:num_neighbors]`),
the record construction loop, the final stable descending sort by prediction, and
the CSV-writing step (modeled only to the extent its control behavior is observable:
which error is raised, and whether the output file is opened/written).

Modeling conventions:
* Distances and predictions are rationals (`ℚ`).  The cosine metric involves square
  roots, so it is taken as an explicit function parameter (`cosineDist`) of the
  pipeline; no claim depends on the numeric values any metric produces.  The jaccard
  metric is rational and is modeled concretely (`scipyJaccard`).
* `np.argsort` with the default `kind='quicksort'` is numpy's introsort
  (`npy_aquicksort` in `numpy/core/src/npysort/quicksort.c.src`): median-of-3
  quicksort partitioning for segments of more than 16 elements, insertion sort for
  smaller segments, and `npy_aheapsort` once the global partition budget
  `2 * msb(n)` is exhausted.  It is modeled faithfully below, including the
  partition scheme, because its behavior on tied keys is observable in the output.
  Loops are expressed with explicit fuel; every fuel bound is ample for the loop it
  models (the bailout branches are unreachable in actual runs).
* Python's `list.sort(key=..., reverse=True)` is a stable descending sort; any two
  stable sorts with respect to the same total comparison compute the same function,
  so it is modeled with Mathlib's stable `List.insertionSort` (which inserts each
  element, processed from the right end of the list, before the first element it
  compares `≤` to — preserving the original relative order of tied elements).
-/

namespace FindSimilar

open List

/-- Python / numpy slicing `l[:n]` with an `Int` bound: a nonnegative bound takes
that many elements from the front, a negative bound drops `-n` elements from the
end. -/
def pySlice (n : Int) (l : List α) : List α :=
  if 0 ≤ n then l.take n.toNat else l.take ((l.length : Int) + n).toNat

/-- `np.mean` of a list of rationals.  numpy returns NaN for an empty list; in this
rational model the empty case evaluates to `0` (division by zero); no theorem
relies on the value of the empty case. -/
def npMean (l : List ℚ) : ℚ := l.sum / (l.length : ℚ)

/-- The sort key of index `i`: the value `v[i]` of the row being argsorted. -/
def key (v : List ℚ) (i : ℕ) : ℚ := v.getD i 0

/-- `v[t[idx]]` as read by the numpy argsort routines: `t` is the index array being
permuted, `v` the fixed row of keys. -/
def val (v : List ℚ) (t : List ℕ) (idx : ℕ) : ℚ := key v (t.getD idx 0)

/-- `INTP_SWAP` on the index array, guarded so that out-of-range arguments (which
never occur in an actual run) leave the array unchanged. -/
def lswap (t : List ℕ) (i j : ℕ) : List ℕ :=
  if i < t.length ∧ j < t.length then (t.set i (t.getD j 0)).set j (t.getD i 0) else t

/-! ## The insertion sort phase of `npy_aquicksort`

The C loop keeps a sorted prefix and, for each new entry `x`, walks the prefix from
its right end moving `x` left past entries with strictly greater key
(`while (pj > pl && LT(vp, v[*pk]))`).  `insScan` is that right-to-left walk,
expressed on the reversed prefix. -/

/-- Walk the reversed sorted prefix, moving `x` past entries with strictly greater
key; `x` settles as soon as a key `≤ key x` is met (so equal keys are never
reordered: the insertion sort is stable). -/
def insScan (v : List ℚ) (x : ℕ) : List ℕ → List ℕ
  | [] => [x]
  | y :: ys => if key v x < key v y then y :: insScan v x ys else x :: y :: ys

/-- Insert one entry into the sorted prefix (prefix kept in normal order). -/
def insStep (v : List ℚ) (s : List ℕ) (x : ℕ) : List ℕ := (insScan v x s.reverse).reverse

/-- The insertion sort phase of `npy_aquicksort` on one segment of the index
array. -/
def insPhase (v : List ℚ) (seg : List ℕ) : List ℕ := seg.foldl (insStep v) []

/-! ## `npy_aheapsort`

Called by the introsort driver on one segment once the partition budget is
exhausted.  The C code addresses the segment 1-based (`a = tosort - 1`); position
`a[k]` is entry `k - 1` of the segment list here.  The sift loop moves a hole down
the heap (`a[i] = a[j]; i = j; j += j`) and finally writes the sifted value into
the hole. -/

/-- The sift loop of `npy_aheapsort`: `i` is the current hole (1-based), `tmp` the
value being sifted, `j` the current child, `n` the heap size.  The `i < j` guard is
an invariant of actual runs (`j` starts at `2 * i`). -/
def siftLoop (v : List ℚ) (n : ℕ) : ℕ → List ℕ → ℕ → ℕ → ℕ → List ℕ
  | 0, s, tmp, i, _ => s.set (i - 1) tmp
  | fuel + 1, s, tmp, i, j =>
    if i < j ∧ j ≤ n then
      let j1 := if j < n ∧ key v (s.getD (j - 1) 0) < key v (s.getD j 0) then j + 1 else j
      if key v tmp < key v (s.getD (j1 - 1) 0) then
        siftLoop v n fuel (s.set (i - 1) (s.getD (j1 - 1) 0)) tmp j1 (2 * j1)
      else s.set (i - 1) tmp
    else s.set (i - 1) tmp

/-- The heapify phase: `for (l = n >> 1; l > 0; --l)` sift `a[l]` down.  The
argument counts the remaining values of `l`. -/
def heapifyLoop (v : List ℚ) (n : ℕ) : ℕ → List ℕ → List ℕ
  | 0, s => s
  | l + 1, s => heapifyLoop v n l (siftLoop v n (n + 2) s (s.getD l 0) (l + 1) (2 * (l + 1)))

/-- The extraction phase: while the heap has at least two entries, swap the root
with the last entry, shrink the heap, and sift the moved value down. -/
def extractLoop (v : List ℚ) : ℕ → List ℕ → List ℕ
  | 0, s => s
  | 1, s => s
  | n + 2, s =>
    let tmp := s.getD (n + 1) 0
    let s1 := s.set (n + 1) (s.getD 0 0)
    extractLoop v (n + 1) (siftLoop v (n + 1) (n + 3) s1 tmp 1 2)

/-- `npy_aheapsort` on one extracted segment of the index array. -/
def aheapsortList (v : List ℚ) (s : List ℕ) : List ℕ :=
  extractLoop v s.length (heapifyLoop v s.length (s.length / 2) s)

/-! ## The quicksort partition of `npy_aquicksort` -/

/-- `do ++pi; while (LT(v[*pi], vp))`: first index at or above `p` whose key is not
`< vp` (fuel-bounded; the median-of-3 setup plants `vp` at `pr - 1`, which stops the
scan within the segment). -/
def scanUp (v : List ℚ) (vp : ℚ) (t : List ℕ) : ℕ → ℕ → ℕ
  | 0, p => p
  | fuel + 1, p => if val v t p < vp then scanUp v vp t fuel (p + 1) else p

/-- `do --pj; while (LT(vp, v[*pj]))`: first index at or below `p` whose key is not
`> vp` (the median-of-3 setup leaves a key `≤ vp` at `pl`, which stops the scan). -/
def scanDown (v : List ℚ) (vp : ℚ) (t : List ℕ) : ℕ → ℕ → ℕ
  | 0, p => p
  | fuel + 1, p => if vp < val v t p then scanDown v vp t fuel (p - 1) else p

/-- The partition scan loop: returns the partitioned index array and the final
pivot position `pi` (after the closing `INTP_SWAP(*pi, *(pr - 1))`). -/
def partLoop (v : List ℚ) (vp : ℚ) (pr : ℕ) : ℕ → List ℕ → ℕ → ℕ → List ℕ × ℕ
  | 0, t, pi, _ => (lswap t pi (pr - 1), pi)
  | fuel + 1, t, pi, pj =>
    let pi1 := scanUp v vp t (pr + 1) (pi + 1)
    let pj1 := scanDown v vp t (pr + 1) (pj - 1)
    if pj1 ≤ pi1 then (lswap t pi1 (pr - 1), pi1)
    else partLoop v vp pr fuel (lswap t pi1 pj1) pi1 pj1

/-- One `npy_aquicksort` partition step on the segment `[pl, pr]`: median-of-3 of
the keys at `pl`, `pm`, `pr` (with the conditional swaps of the C code), pivot
stashed at `pr - 1`, then the scan loop. -/
def aqPartition (v : List ℚ) (t : List ℕ) (pl pr : ℕ) : List ℕ × ℕ :=
  let pm := pl + (pr - pl) / 2
  let t1 := if val v t pm < val v t pl then lswap t pm pl else t
  let t2 := if val v t1 pr < val v t1 pm then lswap t1 pr pm else t1
  let t3 := if val v t2 pm < val v t2 pl then lswap t2 pm pl else t2
  let vp := val v t3 pm
  let t4 := lswap t3 pm (pr - 1)
  partLoop v vp pr (pr - pl + 2) t4 pl (pr - 1)

/-- Apply `f` to the segment `[pl, pr]` (inclusive) of `t`, in place.  Guarded to
well-formed segments; the driver only ever passes well-formed ones. -/
def withSeg (t : List ℕ) (pl pr : ℕ) (f : List ℕ → List ℕ) : List ℕ :=
  if pl ≤ pr ∧ pr < t.length then
    t.take pl ++ f ((t.drop pl).take (pr + 1 - pl)) ++ t.drop (pr + 1)
  else t

/-- The `npy_aquicksort` driver: the current segment is `[pl, pr]`; segments longer
than 16 (`pr - pl > SMALL_QUICKSORT = 15`) are partitioned (the larger half pushed
on the stack, the smaller half processed next) while the shared depth budget lasts,
then heapsorted; segments of at most 16 entries are insertion sorted; finished
segments pop the stack. -/
def aqLoop (v : List ℚ) : ℕ → List ℕ → ℕ → ℕ → List (ℕ × ℕ) → Int → List ℕ
  | 0, t, _, _, _, _ => t
  | fuel + 1, t, pl, pr, stack, depth =>
    if 15 < pr - pl then
      if depth < 0 then
        let t1 := withSeg t pl pr (aheapsortList v)
        match stack with
        | [] => t1
        | (pl1, pr1) :: rest => aqLoop v fuel t1 pl1 pr1 rest (depth - 1)
      else
        let pp := aqPartition v t pl pr
        if pp.2 - pl < pr - pp.2 then
          aqLoop v fuel pp.1 pl (pp.2 - 1) ((pp.2 + 1, pr) :: stack) (depth - 1)
        else
          aqLoop v fuel pp.1 (pp.2 + 1) pr ((pl, pp.2 - 1) :: stack) (depth - 1)
    else
      let t1 := withSeg t pl pr (insPhase v)
      match stack with
      | [] => t1
      | (pl1, pr1) :: rest => aqLoop v fuel t1 pl1 pr1 rest depth

/-- `np.argsort(v)` with the default `kind='quicksort'` (introsort).  The depth
budget is `2 * msb(n)` as in numpy (`npy_get_msb`), and the fuel `2 * n + 2`
strictly dominates the number of driver iterations (at most one partition per unit
of depth budget plus one finishing pass per segment). -/
def npArgsort (v : List ℚ) : List ℕ :=
  if v.length = 0 then []
  else aqLoop v (2 * v.length + 2) (List.range v.length) 0 (v.length - 1) []
    (2 * Nat.log2 v.length)

/-! ## The pipeline -/

/-- Errors surfaced by the modeled pipeline: scipy `cdist` shape validation
errors, the unsupported-distance-measure `ValueError` of the script, and the
`IndexError` of `neighbors[0]` in the saving step. -/
inductive PyError
  | notTwoDimXA
  | notTwoDimXB
  | colMismatch
  | unsupportedMeasure (measure : String)
  | indexError
  deriving DecidableEq, Repr

/-- Externally observable milestones of one run, in order of occurrence: both
distance matrices computed; the output file opened (`open(save_path, 'w')`, which
creates/truncates the file); the report written. -/
inductive Event
  | computedDistances
  | openedOutput
  | wroteReport
  deriving DecidableEq, Repr

/-- One per-neighbor group of output fields (`train_smiles_{r}`,
`train_is_antibiotic_{r}`, `train_vec_cosine_dist_{r}`,
`train_morgan_jaccard_dist_{r}`). -/
structure NeighborDetail where
  train_smiles : String
  train_is_antibiotic : Bool
  train_vec_cosine_dist : ℚ
  train_morgan_jaccard_dist : ℚ
  deriving DecidableEq, Repr, Inhabited

/-- One row of the report (the `OrderedDict` built per test molecule). -/
structure NeighborRecord where
  test_smiles : String
  in_train : Bool
  test_pred : ℚ
  avg_vec_cosine_dist : ℚ
  avg_morgan_jaccard_dist : ℚ
  details : List NeighborDetail
  deriving DecidableEq, Repr, Inhabited

instance {ε α : Type} [DecidableEq ε] [DecidableEq α] : DecidableEq (Except ε α) :=
  fun a b =>
  match a, b with
  | .error e, .error f =>
    if h : e = f then .isTrue (by rw [h]) else .isFalse (fun hc => h (Except.error.inj hc))
  | .ok x, .ok y =>
    if h : x = y then .isTrue (by rw [h]) else .isFalse (fun hc => h (Except.ok.inj hc))
  | .error _, .ok _ => .isFalse (fun hc => Except.noConfusion hc)
  | .ok _, .error _ => .isFalse (fun hc => Except.noConfusion hc)

/-- The outcome of one run: the milestones reached, and either the ordered report
or the error raised. -/
structure RunResult where
  events : List Event
  result : Except PyError (List NeighborRecord)
  deriving DecidableEq, Repr

/-- scipy `cdist`.  `np.array` of an empty Python list has shape `(0,)`, which is
not 2-dimensional, so `cdist` rejects an empty input (`'XA must be a 2-dimensional
array.'`, checked for `XA` first, then `XB`); it also requires the two inputs to
have the same number of columns.  Otherwise it returns the dense matrix of
pairwise distances under `metric`. -/
def cdist (A B : List (List ℚ)) (metric : List ℚ → List ℚ → ℚ) :
    Except PyError (List (List ℚ)) :=
  if A.isEmpty then .error .notTwoDimXA
  else if B.isEmpty then .error .notTwoDimXB
  else if (A ++ B).all (fun r => r.length = (A.headD []).length) then
    .ok (A.map fun a => B.map fun b => metric a b)
  else .error .colMismatch

/-- scipy's `jaccard` metric on two rows: the number of coordinates where the rows
differ over the number of coordinates where at least one row is nonzero (scipy
returns `0` when the latter is zero). -/
def scipyJaccard (u w : List ℚ) : ℚ :=
  let pairs := u.zip w
  let nneq := (pairs.filter fun p => decide (p.1 ≠ p.2)).length
  let nnz := (pairs.filter fun p => decide (p.1 ≠ 0 ∨ p.2 ≠ 0)).length
  if nnz = 0 then 0 else (nneq : ℚ) / (nnz : ℚ)

/-- `np.argsort(dist_matrix[test_index])[:num_neighbors]`: the selected reference
indices for one query row. -/
def neighborIndices (row : List ℚ) (num_neighbors : Int) : List ℕ :=
  pySlice num_neighbors (npArgsort row)

/-- The body of the `for test_index in range(len(test_data))` loop: build the
record of query index `i`. -/
def mkRecord (testSmiles trainSmiles antibiotics : List String)
    (testPreds : List (List ℚ)) (distMatrix vecD morganD : List (List ℚ))
    (num_neighbors : Int) (i : ℕ) : NeighborRecord :=
  let nearest := neighborIndices (distMatrix.getD i []) num_neighbors
  let vecRow := vecD.getD i []
  let morganRow := morganD.getD i []
  { test_smiles := testSmiles.getD i ""
    in_train := trainSmiles.contains (testSmiles.getD i "")
    test_pred := (testPreds.getD i []).getD 0 0
    avg_vec_cosine_dist := npMean (nearest.map fun t => vecRow.getD t 0)
    avg_morgan_jaccard_dist := npMean (nearest.map fun t => morganRow.getD t 0)
    details := nearest.map fun t =>
      { train_smiles := trainSmiles.getD t ""
        train_is_antibiotic := antibiotics.contains (trainSmiles.getD t "")
        train_vec_cosine_dist := vecRow.getD t 0
        train_morgan_jaccard_dist := morganRow.getD t 0 } }

/-- The record construction loop, in query order. -/
def buildRecords (testSmiles trainSmiles antibiotics : List String)
    (testPreds : List (List ℚ)) (distMatrix vecD morganD : List (List ℚ))
    (num_neighbors : Int) : List NeighborRecord :=
  (List.range testSmiles.length).map
    (mkRecord testSmiles trainSmiles antibiotics testPreds distMatrix vecD morganD
      num_neighbors)

/-- The (total, non-strict) descending comparison on records used by the final
sort: `a` before `b` when `b.test_pred ≤ a.test_pred`. -/
def scoreGe (a b : NeighborRecord) : Prop := b.test_pred ≤ a.test_pred

instance : DecidableRel scoreGe := fun a b => by unfold scoreGe; infer_instance

instance : IsTotal NeighborRecord scoreGe :=
  ⟨fun a b => le_total b.test_pred a.test_pred⟩

instance : IsTrans NeighborRecord scoreGe := ⟨fun _ _ _ h1 h2 => h2.trans h1⟩

/-- `neighbors.sort(key=lambda neighbor: neighbor['test_pred'], reverse=True)`:
Python's stable descending sort by score, modeled by the stable
`List.insertionSort` (any two stable sorts under the same total comparison
agree). -/
def pySortDesc (recs : List NeighborRecord) : List NeighborRecord :=
  recs.insertionSort scoreGe

/-- The part of the script that runs once both distance matrices exist: dispatch
on `distance_measure` (raising `ValueError` on an unsupported name — this check
sits after the `cdist` calls in the source), run the neighbor loop, stable-sort
by prediction descending, open the output file and write the report
(`neighbors[0].keys()` raises `IndexError` when there are no records). -/
def afterDistances (testSmiles trainSmiles antibiotics : List String)
    (testPreds : List (List ℚ)) (morganD vecD : List (List ℚ))
    (distance_measure : String) (num_neighbors : Int) : RunResult :=
  if distance_measure = "vec" ∨ distance_measure = "morgan" then
    match pySortDesc (buildRecords testSmiles trainSmiles antibiotics testPreds
      (if distance_measure = "vec" then vecD else morganD) vecD morganD
      num_neighbors) with
    | [] => ⟨[.computedDistances, .openedOutput], .error .indexError⟩
    | r :: rs => ⟨[.computedDistances, .openedOutput, .wroteReport], .ok (r :: rs)⟩
  else ⟨[.computedDistances], .error (.unsupportedMeasure distance_measure)⟩

/-- The pipeline from the materialized representations onward, mirroring the
statement order of `find_similar_preds`: compute both distance matrices with
`cdist` (jaccard on the fingerprints, cosine on the vectors), then the
post-distance stages (`afterDistances`).  The external collaborators (data
loading, fingerprints, the model's predictions and vectors) enter as
materialized inputs; the cosine metric is an explicit function parameter. -/
def find_similar_preds (testSmiles trainSmiles antibiotics : List String)
    (testPreds : List (List ℚ))
    (testMorgans trainMorgans testVecs trainVecs : List (List ℚ))
    (cosineDist : List ℚ → List ℚ → ℚ)
    (distance_measure : String) (num_neighbors : Int) : RunResult :=
  match cdist testMorgans trainMorgans scipyJaccard with
  | .error e => ⟨[], .error e⟩
  | .ok morganD =>
    match cdist testVecs trainVecs cosineDist with
    | .error e => ⟨[], .error e⟩
    | .ok vecD =>
      afterDistances testSmiles trainSmiles antibiotics testPreds morganD vecD
        distance_measure num_neighbors

/-! ## Specification-side definitions

These follow the wording of the specification, for comparison with the
code-derived definitions above. -/

/-- The spec's tie-breaking order on reference indices: ascending by distance,
ties broken by the lower original index. -/
def specLe (row : List ℚ) (i j : ℕ) : Prop :=
  key row i < key row j ∨ (key row i = key row j ∧ i ≤ j)

instance (row : List ℚ) : DecidableRel (specLe row) := fun i j => by
  unfold specLe; infer_instance

/-- Modelled from the spec: "take the K indices with smallest value in
`distMatrix_selectionMetric[i]`, sorted ascending by that value, stable on ties
(lower original index wins ties)". -/
def specNeighborIndices (row : List ℚ) (num_neighbors : Int) : List ℕ :=
  ((List.range row.length).insertionSort (specLe row)).take num_neighbors.toNat

/-! ## Permutation facts about the argsort model

`npArgsort` only rearranges the index array, so its result is a permutation of
`List.range n`.  Every mutation in the model is a guarded swap or an in-place
segment rewrite, and each preserves the multiset of entries. -/

theorem getD_set_ne (s : List ℕ) (i j y : ℕ) (h : i ≠ j) :
    (s.set i y).getD j 0 = s.getD j 0 := by
  simp only [List.getD_eq_getElem?_getD]
  rw [List.getElem?_set_ne h]

theorem getD_mem_of_lt (l : List ℕ) (p : ℕ) (hp : p < l.length) : l.getD p 0 ∈ l := by
  rw [List.getD_eq_getElem?_getD, List.getElem?_eq_getElem hp]
  exact List.getElem_mem hp

theorem coe_set (l : List ℕ) (p x : ℕ) (hp : p < l.length) :
    ((l.set p x : List ℕ) : Multiset ℕ) = x ::ₘ (↑l : Multiset ℕ).erase (l.getD p 0) := by
  induction l generalizing p with
  | nil => simp at hp
  | cons a t ih =>
    cases p with
    | zero =>
      show ((x :: t : List ℕ) : Multiset ℕ)
        = x ::ₘ (↑(a :: t) : Multiset ℕ).erase ((a :: t).getD 0 0)
      rw [List.getD_cons_zero, ← Multiset.cons_coe, ← Multiset.cons_coe,
        Multiset.erase_cons_head]
    | succ p =>
      have hp' : p < t.length := by simpa using hp
      show ((a :: t.set p x : List ℕ) : Multiset ℕ)
        = x ::ₘ (↑(a :: t) : Multiset ℕ).erase ((a :: t).getD (p + 1) 0)
      rw [List.getD_cons_succ, ← Multiset.cons_coe, ← Multiset.cons_coe, ih p hp']
      by_cases hd : t.getD p 0 = a
      · rw [hd, Multiset.erase_cons_head, Multiset.cons_swap]
        congr 1
        exact Multiset.cons_erase (Multiset.mem_coe.mpr (hd ▸ getD_mem_of_lt t p hp'))
      · rw [Multiset.erase_cons_tail _ (fun h => hd h.symm), Multiset.cons_swap]

theorem perm_set_shift (s : List ℕ) (i j x : ℕ) (hij : i ≠ j)
    (hi : i < s.length) (hj : j < s.length) :
    (s.set i (s.getD j 0)).set j x ~ s.set i x := by
  rw [← Multiset.coe_eq_coe]
  rw [coe_set _ j x (by simpa using hj), coe_set _ i x hi,
    coe_set _ i (s.getD j 0) hi, getD_set_ne s i j _ hij]
  rw [Multiset.erase_cons_head]

theorem set_getD_self (s : List ℕ) (i : ℕ) : s.set i (s.getD i 0) = s := by
  induction s generalizing i with
  | nil => rfl
  | cons a t ih =>
    cases i with
    | zero =>
      show (a :: t).getD 0 0 :: t = a :: t
      rw [List.getD_cons_zero]
    | succ i =>
      show a :: t.set i ((a :: t).getD (i + 1) 0) = a :: t
      rw [List.getD_cons_succ, ih]

theorem lswap_perm (t : List ℕ) (i j : ℕ) : lswap t i j ~ t := by
  unfold lswap
  split
  · rename_i h
    by_cases hij : i = j
    · subst hij
      rw [List.set_set, set_getD_self]
    · exact (perm_set_shift t i j _ hij h.1 h.2).trans (by rw [set_getD_self])
  · exact Perm.refl _

theorem siftLoop_perm (v : List ℚ) (n : ℕ) :
    ∀ (fuel : ℕ) (s : List ℕ) (tmp i j : ℕ), 1 ≤ i → i - 1 < s.length → n ≤ s.length →
      siftLoop v n fuel s tmp i j ~ s.set (i - 1) tmp
  | 0, s, tmp, i, j, _, _, _ => Perm.refl _
  | fuel + 1, s, tmp, i, j, h1, h2, h3 => by
    simp only [siftLoop]
    by_cases hg : i < j ∧ j ≤ n
    · rw [if_pos hg]
      set j1 := if j < n ∧ key v (s.getD (j - 1) 0) < key v (s.getD j 0) then j + 1 else j
        with hj1
      have hj1n : j1 ≤ n := by
        rw [hj1]; split
        · rename_i hc; omega
        · exact hg.2
      have hij1 : i < j1 := by
        rw [hj1]; split <;> omega
      by_cases hk : key v tmp < key v (s.getD (j1 - 1) 0)
      · rw [if_pos hk]
        have hrec := siftLoop_perm v n fuel (s.set (i - 1) (s.getD (j1 - 1) 0)) tmp j1 (2 * j1)
          (by omega) (by simpa using (by omega : j1 - 1 < n).trans_le h3) (by simpa using h3)
        refine hrec.trans ?_
        exact perm_set_shift s (i - 1) (j1 - 1) tmp (by omega) h2
          ((by omega : j1 - 1 < n).trans_le h3)
      · rw [if_neg hk]
    · rw [if_neg hg]

theorem heapifyLoop_perm (v : List ℚ) (n : ℕ) :
    ∀ (l : ℕ) (s : List ℕ), l ≤ n / 2 → n ≤ s.length → heapifyLoop v n l s ~ s
  | 0, s, _, _ => Perm.refl _
  | l + 1, s, hl, hn => by
    have hlen : l < s.length := by omega
    have hsift := siftLoop_perm v n (n + 2) s (s.getD l 0) (l + 1) (2 * (l + 1))
      (by omega) (by simpa using hlen) hn
    simp only [Nat.add_sub_cancel] at hsift
    rw [set_getD_self] at hsift
    refine Perm.trans ?_ hsift
    exact heapifyLoop_perm v n l _ (by omega) (by rw [hsift.length_eq]; exact hn)

theorem extractLoop_perm (v : List ℚ) :
    ∀ (k : ℕ) (s : List ℕ), k ≤ s.length → extractLoop v k s ~ s
  | 0, s, _ => Perm.refl _
  | 1, s, _ => Perm.refl _
  | n + 2, s, hk => by
    have hlen1 : n + 1 < s.length := by omega
    have hsift := siftLoop_perm v (n + 1) (n + 3)
      (s.set (n + 1) (s.getD 0 0)) (s.getD (n + 1) 0) 1 2
      (by omega) (by simp only [List.length_set]; omega) (by simp only [List.length_set]; omega)
    have hshift := perm_set_shift s (n + 1) 0 (s.getD (n + 1) 0)
      (by omega) hlen1 (by omega)
    rw [set_getD_self] at hshift
    have hstep := hsift.trans hshift
    refine Perm.trans ?_ hstep
    exact extractLoop_perm v (n + 1) _ (by rw [hstep.length_eq]; omega)

theorem aheapsortList_perm (v : List ℚ) (s : List ℕ) : aheapsortList v s ~ s := by
  unfold aheapsortList
  have hheap := heapifyLoop_perm v s.length (s.length / 2) s (le_refl _) (le_refl _)
  exact (extractLoop_perm v s.length _ (by rw [hheap.length_eq])).trans hheap

theorem insScan_perm (v : List ℚ) (x : ℕ) : ∀ t : List ℕ, insScan v x t ~ x :: t
  | [] => Perm.refl _
  | y :: ys => by
    unfold insScan
    split
    · exact ((insScan_perm v x ys).cons y).trans (Perm.swap x y ys)
    · exact Perm.refl _

theorem insStep_perm (v : List ℚ) (s : List ℕ) (x : ℕ) : insStep v s x ~ x :: s := by
  unfold insStep
  refine (reverse_perm _).trans ?_
  exact ((insScan_perm v x s.reverse).trans ((reverse_perm s).cons x))

theorem foldl_insStep_perm (v : List ℚ) :
    ∀ (seg acc : List ℕ), seg.foldl (insStep v) acc ~ acc ++ seg
  | [], acc => by simp
  | x :: xs, acc => by
    simp only [List.foldl_cons]
    refine (foldl_insStep_perm v xs (insStep v acc x)).trans ?_
    refine ((insStep_perm v acc x).append_right xs).trans ?_
    exact perm_middle.symm

theorem insPhase_perm (v : List ℚ) (seg : List ℕ) : insPhase v seg ~ seg := by
  simpa using foldl_insStep_perm v seg []

theorem condSwap_perm (t : List ℕ) (c : Prop) [Decidable c] (i j : ℕ) :
    (if c then lswap t i j else t) ~ t := by
  split
  · exact lswap_perm t i j
  · exact Perm.refl _

theorem partLoop_perm (v : List ℚ) (vp : ℚ) (pr : ℕ) :
    ∀ (fuel : ℕ) (t : List ℕ) (pi pj : ℕ), (partLoop v vp pr fuel t pi pj).1 ~ t
  | 0, t, pi, _ => lswap_perm t pi (pr - 1)
  | fuel + 1, t, pi, pj => by
    simp only [partLoop]
    split
    · exact lswap_perm t _ (pr - 1)
    · exact (partLoop_perm v vp pr fuel _ _ _).trans (lswap_perm t _ _)

theorem aqPartition_perm (v : List ℚ) (t : List ℕ) (pl pr : ℕ) :
    (aqPartition v t pl pr).1 ~ t := by
  unfold aqPartition
  refine (partLoop_perm v _ pr _ _ pl (pr - 1)).trans ?_
  refine (lswap_perm _ _ (pr - 1)).trans ?_
  refine (condSwap_perm _ _ _ _).trans ?_
  refine (condSwap_perm _ _ _ _).trans ?_
  exact condSwap_perm _ _ _ _

theorem withSeg_perm (t : List ℕ) (pl pr : ℕ) (f : List ℕ → List ℕ)
    (hf : ∀ seg, f seg ~ seg) : withSeg t pl pr f ~ t := by
  unfold withSeg
  split
  · rename_i h
    have h2 : (t.drop pl).drop (pr + 1 - pl) = t.drop (pr + 1) := by
      rw [List.drop_drop]
      congr 1
      omega
    have hsplit : t.take pl ++ ((t.drop pl).take (pr + 1 - pl) ++ t.drop (pr + 1)) = t := by
      rw [← h2, List.take_append_drop, List.take_append_drop]
    calc t.take pl ++ f ((t.drop pl).take (pr + 1 - pl)) ++ t.drop (pr + 1)
        ~ t.take pl ++ ((t.drop pl).take (pr + 1 - pl) ++ t.drop (pr + 1)) := by
          rw [List.append_assoc]
          exact (((hf _).append_right _).append_left _)
      _ = t := hsplit
  · exact Perm.refl _

theorem aqLoop_perm (v : List ℚ) :
    ∀ (fuel : ℕ) (t : List ℕ) (pl pr : ℕ) (stack : List (ℕ × ℕ)) (depth : Int),
      aqLoop v fuel t pl pr stack depth ~ t
  | 0, t, _, _, _, _ => Perm.refl _
  | fuel + 1, t, pl, pr, stack, depth => by
    simp only [aqLoop]
    split
    · split
      · match stack with
        | [] => exact withSeg_perm t pl pr _ (aheapsortList_perm v)
        | (pl1, pr1) :: rest =>
          exact (aqLoop_perm v fuel _ pl1 pr1 rest _).trans
            (withSeg_perm t pl pr _ (aheapsortList_perm v))
      · split
        · exact (aqLoop_perm v fuel _ pl _ _ _).trans (aqPartition_perm v t pl pr)
        · exact (aqLoop_perm v fuel _ _ pr _ _).trans (aqPartition_perm v t pl pr)
    · match stack with
      | [] => exact withSeg_perm t pl pr _ (insPhase_perm v)
      | (pl1, pr1) :: rest =>
        exact (aqLoop_perm v fuel _ pl1 pr1 rest _).trans
          (withSeg_perm t pl pr _ (insPhase_perm v))

/-- `np.argsort` returns a permutation of `range n`: core index-integrity fact of
the Neighbor Selector. -/
theorem npArgsort_perm (v : List ℚ) : npArgsort v ~ List.range v.length := by
  unfold npArgsort
  split
  · rename_i h
    rw [h, List.range_zero]
  · exact aqLoop_perm v _ _ _ _ _ _

theorem npArgsort_length (v : List ℚ) : (npArgsort v).length = v.length := by
  rw [(npArgsort_perm v).length_eq, List.length_range]

/-! ## Small rows take the insertion sort path, which realizes the spec's stable
tie-break order -/

theorem specLe_trans (row : List ℚ) (a b c : ℕ) (h1 : specLe row a b)
    (h2 : specLe row b c) : specLe row a c := by
  unfold specLe at h1 h2 ⊢
  rcases h1 with h1 | ⟨h1, h1i⟩ <;> rcases h2 with h2 | ⟨h2, h2i⟩
  · exact Or.inl (h1.trans h2)
  · exact Or.inl (h2 ▸ h1)
  · exact Or.inl (h1 ▸ h2)
  · exact Or.inr ⟨h1.trans h2, h1i.trans h2i⟩

theorem specLe_total (row : List ℚ) (a b : ℕ) : specLe row a b ∨ specLe row b a := by
  unfold specLe
  rcases lt_trichotomy (key row a) (key row b) with h | h | h
  · exact Or.inl (Or.inl h)
  · rcases Nat.le_total a b with hi | hi
    · exact Or.inl (Or.inr ⟨h, hi⟩)
    · exact Or.inr (Or.inr ⟨h.symm, hi⟩)
  · exact Or.inr (Or.inl h)

theorem specLe_antisymm (row : List ℚ) (a b : ℕ) (h1 : specLe row a b)
    (h2 : specLe row b a) : a = b := by
  unfold specLe at h1 h2
  rcases h1 with h1 | ⟨h1, h1i⟩ <;> rcases h2 with h2 | ⟨h2, h2i⟩
  · exact absurd (h1.trans h2) (lt_irrefl _)
  · rw [h2] at h1; exact absurd h1 (lt_irrefl _)
  · rw [h1] at h2; exact absurd h2 (lt_irrefl _)
  · omega

theorem insScan_pairwise (v : List ℚ) (x : ℕ) :
    ∀ t : List ℕ, Pairwise (fun a b => specLe v b a) t → (∀ y ∈ t, y < x) →
      Pairwise (fun a b => specLe v b a) (insScan v x t)
  | [], _, _ => by simp [insScan]
  | y :: ys, hp, hmem => by
    unfold insScan
    rw [pairwise_cons] at hp
    split
    · rename_i hlt
      rw [pairwise_cons]
      refine ⟨?_, ?_⟩
      · intro z hz
        rcases mem_cons.mp ((insScan_perm v x ys).mem_iff.mp hz) with rfl | hzy
        · exact Or.inl hlt
        · exact hp.1 z hzy
      · exact insScan_pairwise v x ys hp.2 fun z hz => hmem z (mem_cons_of_mem _ hz)
    · rename_i hnlt
      have hyx : specLe v y x := by
        rcases lt_or_eq_of_le (not_lt.mp hnlt) with h | h
        · exact Or.inl h
        · exact Or.inr ⟨h, le_of_lt (hmem y (mem_cons_self _ _))⟩
      rw [pairwise_cons]
      refine ⟨?_, pairwise_cons.mpr hp⟩
      intro z hz
      rcases mem_cons.mp hz with rfl | hzy
      · exact hyx
      · exact specLe_trans v z y x (hp.1 z hzy) hyx

theorem insStep_pairwise (v : List ℚ) (s : List ℕ) (x : ℕ)
    (hs : Pairwise (specLe v) s) (hmem : ∀ y ∈ s, y < x) :
    Pairwise (specLe v) (insStep v s x) := by
  unfold insStep
  rw [pairwise_reverse]
  exact insScan_pairwise v x s.reverse (pairwise_reverse.mpr hs)
    fun y hy => hmem y (mem_reverse.mp hy)

theorem insPhase_range_pairwise (v : List ℚ) :
    ∀ n : ℕ, Pairwise (specLe v) (insPhase v (List.range n))
  | 0 => by simp [insPhase]
  | n + 1 => by
    unfold insPhase
    rw [List.range_succ, List.foldl_append]
    simp only [List.foldl_cons, List.foldl_nil]
    exact insStep_pairwise v _ n (insPhase_range_pairwise v n)
      fun y hy => List.mem_range.mp ((insPhase_perm v (List.range n)).mem_iff.mp hy)

instance (row : List ℚ) : IsTotal ℕ (specLe row) := ⟨specLe_total row⟩

instance (row : List ℚ) : IsTrans ℕ (specLe row) := ⟨fun a b c => specLe_trans row a b c⟩

instance (row : List ℚ) : IsAntisymm ℕ (specLe row) := ⟨specLe_antisymm row⟩

theorem insPhase_range_eq_insertionSort (v : List ℚ) :
    insPhase v (List.range v.length)
      = (List.range v.length).insertionSort (specLe v) := by
  apply eq_of_perm_of_sorted (r := specLe v)
  · exact (insPhase_perm v _).trans (perm_insertionSort _ _).symm
  · exact insPhase_range_pairwise v _
  · exact sorted_insertionSort _ _

theorem npArgsort_small (v : List ℚ) (h0 : v.length ≠ 0) (h16 : v.length ≤ 16) :
    npArgsort v = insPhase v (List.range v.length) := by
  unfold npArgsort
  rw [if_neg h0]
  rw [show 2 * v.length + 2 = (2 * v.length + 1) + 1 from rfl]
  simp only [aqLoop]
  rw [if_neg (by omega : ¬ 15 < v.length - 1 - 0)]
  show withSeg (List.range v.length) 0 (v.length - 1) (insPhase v)
    = insPhase v (List.range v.length)
  unfold withSeg
  rw [if_pos ⟨Nat.zero_le _, by rw [List.length_range]; omega⟩]
  simp only [List.take_zero, List.drop_zero, List.nil_append]
  rw [show v.length - 1 + 1 - 0 = v.length by omega,
    show v.length - 1 + 1 = v.length by omega]
  rw [List.take_of_length_le (by rw [List.length_range]),
    show (List.range v.length).drop v.length = [] by
      rw [List.drop_eq_nil_iff, List.length_range],
    List.append_nil]

/-! ## Claim C1 -/

/-- **C1, counterexample.**  The claim says the Neighbor Selector returns the K
smallest-distance reference indices ascending with ties broken by the lower
original index.  At a query row of 17 tied distances — realizable, e.g., by 17
reference fingerprints disjoint from the query fingerprint, which puts jaccard
distance 1 in every column — `np.argsort` takes its quicksort path (rows longer
than 16 are partitioned) and scrambles the tied indices, so the selector's output
differs from the stable order `[0, 1, ..., 16]` the claim requires. -/
theorem neighbor_selector_not_stable :
    neighborIndices (List.replicate 17 (1 : ℚ)) 17
      ≠ specNeighborIndices (List.replicate 17 (1 : ℚ)) 17 := by decide

/-- **C1, amended.**  For query rows of at most 16 reference items, numpy's
argsort insertion-sorts the row, which is stable: the Neighbor Selector returns
exactly the K indices of smallest distance, ascending by distance, ties broken by
the lower original reference index.  For longer rows the default quicksort does
not guarantee that tie order (see the counterexample). -/
theorem neighbor_selector_stable_small (row : List ℚ) (K : Int)
    (h16 : row.length ≤ 16) (hK : 0 ≤ K) :
    neighborIndices row K = specNeighborIndices row K := by
  unfold neighborIndices specNeighborIndices pySlice
  rw [if_pos hK]
  congr 1
  by_cases h0 : row.length = 0
  · unfold npArgsort
    rw [if_pos h0, h0, List.range_zero]
    rfl
  · rw [npArgsort_small row h0 h16, insPhase_range_eq_insertionSort]

theorem neighbor_selector_stable_small_witness :
    ([3, 1, 1, 2] : List ℚ).length ≤ 16 ∧ (0 : Int) ≤ 2 ∧
      neighborIndices [3, 1, 1, 2] 2 = specNeighborIndices [3, 1, 1, 2] 2 :=
  ⟨by decide, by decide,
    neighbor_selector_stable_small [3, 1, 1, 2] 2 (by decide) (by decide)⟩

/-! ## Claim C8 -/

/-- **C8.**  When `num_neighbors` is at least the reference-set size, the slice
keeps the entire argsort output, which is a permutation of all reference indices:
the NeighborSet of every query row contains every reference index exactly once
(no duplicates), i.e. K is effectively clamped to the reference size. -/
theorem k_clamped_selects_all (row : List ℚ) (K : Int)
    (hK : (row.length : Int) ≤ K) :
    (neighborIndices row K).length = row.length ∧
      ∀ j < row.length, (neighborIndices row K).count j = 1 := by
  have hperm : neighborIndices row K ~ List.range row.length := by
    unfold neighborIndices pySlice
    rw [if_pos (by omega : (0 : Int) ≤ K)]
    rw [List.take_of_length_le (by rw [npArgsort_length]; omega)]
    exact npArgsort_perm row
  refine ⟨by rw [hperm.length_eq, List.length_range], ?_⟩
  intro j hj
  rw [hperm.count_eq]
  exact List.count_eq_one_of_mem (List.nodup_range _) (List.mem_range.mpr hj)

theorem k_clamped_selects_all_witness :
    ((([5, 4] : List ℚ).length : Int) ≤ 3) ∧
      ((neighborIndices [5, 4] 3).length = ([5, 4] : List ℚ).length ∧
        ∀ j < ([5, 4] : List ℚ).length, (neighborIndices [5, 4] 3).count j = 1) :=
  ⟨by decide, k_clamped_selects_all [5, 4] 3 (by decide)⟩

/-! ## Pipeline plumbing lemmas -/

theorem find_eq_error_morgan (testSmiles trainSmiles antibiotics : List String)
    (testPreds : List (List ℚ))
    (testMorgans trainMorgans testVecs trainVecs : List (List ℚ))
    (cosineDist : List ℚ → List ℚ → ℚ) (dm : String) (K : Int) (e : PyError)
    (hM : cdist testMorgans trainMorgans scipyJaccard = Except.error e) :
    find_similar_preds testSmiles trainSmiles antibiotics testPreds testMorgans
      trainMorgans testVecs trainVecs cosineDist dm K = ⟨[], .error e⟩ := by
  unfold find_similar_preds
  rw [hM]

theorem find_eq_error_vec (testSmiles trainSmiles antibiotics : List String)
    (testPreds : List (List ℚ))
    (testMorgans trainMorgans testVecs trainVecs : List (List ℚ))
    (cosineDist : List ℚ → List ℚ → ℚ) (dm : String) (K : Int)
    (M : List (List ℚ)) (e : PyError)
    (hM : cdist testMorgans trainMorgans scipyJaccard = Except.ok M)
    (hV : cdist testVecs trainVecs cosineDist = Except.error e) :
    find_similar_preds testSmiles trainSmiles antibiotics testPreds testMorgans
      trainMorgans testVecs trainVecs cosineDist dm K = ⟨[], .error e⟩ := by
  unfold find_similar_preds
  rw [hM, hV]

theorem find_eq_afterDistances (testSmiles trainSmiles antibiotics : List String)
    (testPreds : List (List ℚ))
    (testMorgans trainMorgans testVecs trainVecs : List (List ℚ))
    (cosineDist : List ℚ → List ℚ → ℚ) (dm : String) (K : Int)
    (M V : List (List ℚ))
    (hM : cdist testMorgans trainMorgans scipyJaccard = Except.ok M)
    (hV : cdist testVecs trainVecs cosineDist = Except.ok V) :
    find_similar_preds testSmiles trainSmiles antibiotics testPreds testMorgans
      trainMorgans testVecs trainVecs cosineDist dm K
      = afterDistances testSmiles trainSmiles antibiotics testPreds M V dm K := by
  unfold find_similar_preds
  rw [hM, hV]

theorem buildRecords_length (testSmiles trainSmiles antibiotics : List String)
    (testPreds : List (List ℚ)) (distMatrix vecD morganD : List (List ℚ)) (K : Int) :
    (buildRecords testSmiles trainSmiles antibiotics testPreds distMatrix vecD morganD
      K).length = testSmiles.length := by
  unfold buildRecords
  rw [List.length_map, List.length_range]

theorem pySortDesc_length (recs : List NeighborRecord) :
    (pySortDesc recs).length = recs.length :=
  (perm_insertionSort _ _).length_eq

/-! ## Claim C2 -/

/-- **C2, counterexample.**  With an empty query set, `np.array` of the empty
fingerprint list has shape `(0,)`, so the very first `cdist` call raises
`ValueError: XA must be a 2-dimensional array.`.  The pipeline does not complete
and produces no report (and never even opens the output file), refuting
"an empty query set is a valid input…the pipeline completes and produces an
empty report". -/
theorem empty_query_cx :
    find_similar_preds [] ["C"] [] [] [] [[1]] [] [[1]] (fun _ _ => 0) "vec" 5
      = ⟨[], .error .notTwoDimXA⟩ := by decide

/-- **C2, amended.**  An empty query set is an error, not a valid input: the
first `cdist` call rejects the 0-row query array as not 2-dimensional, so the run
fails before selecting neighbors, before opening the output file, and before
producing any report. -/
theorem empty_query_is_error (testSmiles trainSmiles antibiotics : List String)
    (testPreds : List (List ℚ))
    (testMorgans trainMorgans testVecs trainVecs : List (List ℚ))
    (cosineDist : List ℚ → List ℚ → ℚ) (dm : String) (K : Int)
    (_hq : testSmiles = []) (hqm : testMorgans = []) :
    find_similar_preds testSmiles trainSmiles antibiotics testPreds testMorgans
      trainMorgans testVecs trainVecs cosineDist dm K = ⟨[], .error .notTwoDimXA⟩ := by
  subst hqm
  rfl

theorem empty_query_is_error_witness :
    ([] : List String) = [] ∧ ([] : List (List ℚ)) = [] ∧
      find_similar_preds [] ["C"] ["C"] [] [] [[1]] [] [[1]] (fun _ _ => 1) "morgan" 3
        = ⟨[], .error .notTwoDimXA⟩ :=
  ⟨rfl, rfl,
    empty_query_is_error [] ["C"] ["C"] [] [] [[1]] [] [[1]] (fun _ _ => 1) "morgan" 3
      rfl rfl⟩

/-! ## Claim C3 -/

/-- **C3, counterexample.**  With an unsupported `distance_measure`, the
`ValueError` is indeed raised and no output is produced — but only after both
distance matrices have been computed: the run's trace contains
`computedDistances`.  This refutes "reported before any distance computation
begins". -/
theorem bad_measure_cx :
    find_similar_preds ["A"] ["B"] [] [[1]] [[1]] [[0]] [[1]] [[0]] (fun _ _ => 0)
      "euclidean" 5
      = ⟨[.computedDistances], .error (.unsupportedMeasure "euclidean")⟩ := by decide

/-- **C3, amended.**  For every input on which the distance stage succeeds, an
unsupported selection-metric name raises the fatal `ValueError` — after both
distance matrices have been computed (the dispatch follows the `cdist` calls in
the source), but before the output file is opened or anything is written, so
there is no partial output. -/
theorem bad_measure_error_after_distances
    (testSmiles trainSmiles antibiotics : List String) (testPreds : List (List ℚ))
    (testMorgans trainMorgans testVecs trainVecs : List (List ℚ))
    (cosineDist : List ℚ → List ℚ → ℚ) (dm : String) (K : Int)
    (M V : List (List ℚ))
    (hM : cdist testMorgans trainMorgans scipyJaccard = Except.ok M)
    (hV : cdist testVecs trainVecs cosineDist = Except.ok V)
    (h1 : dm ≠ "vec") (h2 : dm ≠ "morgan") :
    find_similar_preds testSmiles trainSmiles antibiotics testPreds testMorgans
      trainMorgans testVecs trainVecs cosineDist dm K
      = ⟨[.computedDistances], .error (.unsupportedMeasure dm)⟩ := by
  rw [find_eq_afterDistances testSmiles trainSmiles antibiotics testPreds testMorgans
    trainMorgans testVecs trainVecs cosineDist dm K M V hM hV]
  unfold afterDistances
  rw [if_neg (by rintro (h | h) <;> [exact h1 h; exact h2 h])]

theorem bad_measure_error_after_distances_witness :
    cdist [[(1 : ℚ)]] [[(0 : ℚ)]] scipyJaccard
        = Except.ok [[scipyJaccard [(1 : ℚ)] [(0 : ℚ)]]] ∧
      cdist [[(1 : ℚ)]] [[(0 : ℚ)]] (fun _ _ => (2 : ℚ)) = Except.ok [[2]] ∧
      ("cosine" : String) ≠ "vec" ∧ ("cosine" : String) ≠ "morgan" ∧
      find_similar_preds ["A"] ["B"] [] [[1]] [[1]] [[0]] [[1]] [[0]]
        (fun _ _ => (2 : ℚ)) "cosine" 5
        = ⟨[.computedDistances], .error (.unsupportedMeasure "cosine")⟩ :=
  ⟨rfl, rfl, by decide, by decide,
    bad_measure_error_after_distances ["A"] ["B"] [] [[1]] [[1]] [[0]] [[1]] [[0]]
      (fun _ _ => (2 : ℚ)) "cosine" 5 [[scipyJaccard [(1 : ℚ)] [(0 : ℚ)]]] [[2]] rfl rfl
      (by decide) (by decide)⟩

/-! ## Claim C4 -/

/-- **C4, counterexample.**  With `num_neighbors = 0` the script raises no error at
all: every record gets an empty neighbor list (`argsort(row)[:0] = []`), the
aggregate means are means of an empty sequence (NaN in numpy, `0` in this
rational model — either way no exception), and the degenerate report is written.
This refutes "K ≤ 0 raises a fatal configuration error". -/
theorem nonpositive_k_no_error_cx :
    (find_similar_preds ["A"] ["B"] [] [[2]] [[1, 0]] [[0, 1]] [[1]] [[1]]
        (fun _ _ => 0) "morgan" 0).events
      = [.computedDistances, .openedOutput, .wroteReport] ∧
    ∃ rec, (find_similar_preds ["A"] ["B"] [] [[2]] [[1, 0]] [[0, 1]] [[1]] [[1]]
        (fun _ _ => 0) "morgan" 0).result = .ok [rec] ∧
      rec.details = [] ∧ rec.test_smiles = "A" ∧ rec.test_pred = 2 :=
  ⟨rfl, ⟨_, rfl, rfl, rfl, rfl⟩⟩

/-- **C4, amended.**  `num_neighbors` is never validated: for `K ≤ 0` (and any
input with a nonempty query set on which the distance stage succeeds and the
metric name is supported) the pipeline raises no error and silently writes the
degenerate report — `K = 0` yields records with zero neighbor entries (and
undefined means), negative `K` keeps all but the last `|K|` entries by Python
slice semantics. -/
theorem nonpositive_k_silently_reports
    (testSmiles trainSmiles antibiotics : List String) (testPreds : List (List ℚ))
    (testMorgans trainMorgans testVecs trainVecs : List (List ℚ))
    (cosineDist : List ℚ → List ℚ → ℚ) (dm : String) (K : Int)
    (M V : List (List ℚ))
    (hM : cdist testMorgans trainMorgans scipyJaccard = Except.ok M)
    (hV : cdist testVecs trainVecs cosineDist = Except.ok V)
    (hdm : dm = "vec" ∨ dm = "morgan") (_hK : K ≤ 0) (hq : testSmiles ≠ []) :
    find_similar_preds testSmiles trainSmiles antibiotics testPreds testMorgans
      trainMorgans testVecs trainVecs cosineDist dm K
      = ⟨[.computedDistances, .openedOutput, .wroteReport],
         .ok (pySortDesc (buildRecords testSmiles trainSmiles antibiotics testPreds
           (if dm = "vec" then V else M) V M K))⟩ := by
  rw [find_eq_afterDistances testSmiles trainSmiles antibiotics testPreds testMorgans
    trainMorgans testVecs trainVecs cosineDist dm K M V hM hV]
  unfold afterDistances
  rw [if_pos hdm]
  rcases hsp : pySortDesc (buildRecords testSmiles trainSmiles antibiotics testPreds
    (if dm = "vec" then V else M) V M K) with _ | ⟨r, rs⟩
  · exfalso
    apply hq
    rw [← List.length_eq_zero, ← buildRecords_length testSmiles trainSmiles antibiotics
      testPreds (if dm = "vec" then V else M) V M K, ← pySortDesc_length, hsp]
    rfl
  · rfl

theorem nonpositive_k_silently_reports_witness :
    cdist [[(1 : ℚ), 0]] [[(0 : ℚ), 1]] scipyJaccard
        = Except.ok [[scipyJaccard [(1 : ℚ), 0] [(0 : ℚ), 1]]] ∧
      cdist [[(1 : ℚ)]] [[(1 : ℚ)]] (fun _ _ => (0 : ℚ)) = Except.ok [[0]] ∧
      (("morgan" : String) = "vec" ∨ ("morgan" : String) = "morgan") ∧
      ((-2 : Int) ≤ 0) ∧ (["A"] : List String) ≠ [] ∧
      find_similar_preds ["A"] ["B"] [] [[1]] [[1, 0]] [[0, 1]] [[1]] [[1]]
        (fun _ _ => (0 : ℚ)) "morgan" (-2)
        = ⟨[.computedDistances, .openedOutput, .wroteReport],
           .ok (pySortDesc (buildRecords ["A"] ["B"] [] [[1]]
             (if ("morgan" : String) = "vec" then [[(0 : ℚ)]]
              else [[scipyJaccard [(1 : ℚ), 0] [(0 : ℚ), 1]]])
             [[0]] [[scipyJaccard [(1 : ℚ), 0] [(0 : ℚ), 1]]] (-2)))⟩ :=
  ⟨rfl, rfl, by decide, by decide, by decide,
    nonpositive_k_silently_reports ["A"] ["B"] [] [[1]] [[1, 0]] [[0, 1]] [[1]] [[1]]
      (fun _ _ => (0 : ℚ)) "morgan" (-2) [[scipyJaccard [(1 : ℚ), 0] [(0 : ℚ), 1]]] [[0]]
      rfl rfl (by decide) (by decide) (by decide)⟩

/-! ## Claim C5 -/

/-- **C5.**  An empty reference set (with any positive `num_neighbors`) makes the
pipeline fail before producing a report: `np.array` of the empty reference
fingerprint list is 1-dimensional, so `cdist` raises its shape `ValueError` — a
configuration-style failure in the sense of the spec (dimensionality
validation), with no output of any kind. -/
theorem empty_reference_is_error
    (testSmiles trainSmiles antibiotics : List String) (testPreds : List (List ℚ))
    (testMorgans trainMorgans testVecs trainVecs : List (List ℚ))
    (cosineDist : List ℚ → List ℚ → ℚ) (dm : String) (K : Int)
    (hr : trainMorgans = []) (_hK : 0 < K) :
    (find_similar_preds testSmiles trainSmiles antibiotics testPreds testMorgans
        trainMorgans testVecs trainVecs cosineDist dm K).events = [] ∧
      ∃ e, (find_similar_preds testSmiles trainSmiles antibiotics testPreds testMorgans
        trainMorgans testVecs trainVecs cosineDist dm K).result = Except.error e := by
  subst hr
  cases testMorgans with
  | nil => exact ⟨rfl, .notTwoDimXA, rfl⟩
  | cons a tl => exact ⟨rfl, .notTwoDimXB, rfl⟩

theorem empty_reference_is_error_witness :
    ([] : List (List ℚ)) = [] ∧ (0 : Int) < 4 ∧
      ((find_similar_preds ["A"] [] [] [[1]] [[1]] [] [[1]] [] (fun _ _ => 0) "vec"
          4).events = [] ∧
        ∃ e, (find_similar_preds ["A"] [] [] [[1]] [[1]] [] [[1]] [] (fun _ _ => 0) "vec"
          4).result = Except.error e) :=
  ⟨rfl, by decide,
    empty_reference_is_error ["A"] [] [] [[1]] [[1]] [] [[1]] [] (fun _ _ => 0) "vec" 4
      rfl (by decide)⟩

theorem buildRecords_getD (testSmiles trainSmiles antibiotics : List String)
    (testPreds : List (List ℚ)) (distMatrix vecD morganD : List (List ℚ)) (K : Int)
    (i : ℕ) (hi : i < testSmiles.length) :
    (buildRecords testSmiles trainSmiles antibiotics testPreds distMatrix vecD morganD
        K).getD i default
      = mkRecord testSmiles trainSmiles antibiotics testPreds distMatrix vecD morganD
          K i := by
  unfold buildRecords
  rw [List.getD_eq_getElem?_getD, List.getElem?_map, List.getElem?_range hi]
  rfl

theorem getD_map_of_lt {α β : Type} (f : α → β) (l : List α) (r : ℕ)
    (hr : r < l.length) (d : α) (d2 : β) : (l.map f).getD r d2 = f (l.getD r d) := by
  rw [List.getD_eq_getElem?_getD, List.getElem?_map, List.getElem?_eq_getElem hr,
    List.getD_eq_getElem?_getD, List.getElem?_eq_getElem hr]
  rfl

/-! ## Claim C7 -/

/-- **C7.**  The two aggregate fields of the record of query index `i` are the
arithmetic means, over the indices selected for that query (under whichever
matrix drove selection), of the distances read from the vector-distance matrix
and from the fingerprint-distance matrix respectively.  `distMatrix` here is the
selection matrix — either of the two, so the fact holds regardless of which
metric drove selection. -/
theorem record_mean_fields (testSmiles trainSmiles antibiotics : List String)
    (testPreds : List (List ℚ)) (distMatrix vecD morganD : List (List ℚ)) (K : Int)
    (i : ℕ) (hi : i < testSmiles.length) :
    ((buildRecords testSmiles trainSmiles antibiotics testPreds distMatrix vecD morganD
          K).getD i default).avg_vec_cosine_dist
        = npMean ((neighborIndices (distMatrix.getD i []) K).map
            fun t => (vecD.getD i []).getD t 0) ∧
      ((buildRecords testSmiles trainSmiles antibiotics testPreds distMatrix vecD morganD
          K).getD i default).avg_morgan_jaccard_dist
        = npMean ((neighborIndices (distMatrix.getD i []) K).map
            fun t => (morganD.getD i []).getD t 0) := by
  rw [buildRecords_getD testSmiles trainSmiles antibiotics testPreds distMatrix vecD
    morganD K i hi]
  exact ⟨rfl, rfl⟩

theorem record_mean_fields_witness :
    0 < (["A"] : List String).length ∧
      (((buildRecords ["A"] ["B", "C"] [] [[2]] [[1, 3]] [[4, 5]] [[6, 7]] 2).getD 0
            default).avg_vec_cosine_dist
          = npMean ((neighborIndices ([[( 1 : ℚ), 3]].getD 0 []) 2).map
              fun t => ([[(4 : ℚ), 5]].getD 0 []).getD t 0) ∧
        ((buildRecords ["A"] ["B", "C"] [] [[2]] [[1, 3]] [[4, 5]] [[6, 7]] 2).getD 0
            default).avg_morgan_jaccard_dist
          = npMean ((neighborIndices ([[(1 : ℚ), 3]].getD 0 []) 2).map
              fun t => ([[(6 : ℚ), 7]].getD 0 []).getD t 0)) :=
  ⟨by decide,
    record_mean_fields ["A"] ["B", "C"] [] [[2]] [[1, 3]] [[4, 5]] [[6, 7]] 2 0
      (by decide)⟩

/-! ## Claim C9 -/

/-- **C9.**  The four per-neighbor fields at selection rank `r` of the record of
query `i` all refer to one and the same reference index — the `r`-th selected
index `t` — and the two reported distances are exactly the entries of the two
distance matrices at position `(i, t)`. -/
theorem neighbor_fields_aligned (testSmiles trainSmiles antibiotics : List String)
    (testPreds : List (List ℚ)) (distMatrix vecD morganD : List (List ℚ)) (K : Int)
    (i r : ℕ) (hi : i < testSmiles.length)
    (hr : r < (neighborIndices (distMatrix.getD i []) K).length) :
    ((buildRecords testSmiles trainSmiles antibiotics testPreds distMatrix vecD morganD
        K).getD i default).details.getD r default
      = { train_smiles :=
            trainSmiles.getD ((neighborIndices (distMatrix.getD i []) K).getD r 0) ""
          train_is_antibiotic := antibiotics.contains
            (trainSmiles.getD ((neighborIndices (distMatrix.getD i []) K).getD r 0) "")
          train_vec_cosine_dist :=
            (vecD.getD i []).getD ((neighborIndices (distMatrix.getD i []) K).getD r 0) 0
          train_morgan_jaccard_dist :=
            (morganD.getD i []).getD
              ((neighborIndices (distMatrix.getD i []) K).getD r 0) 0 } := by
  rw [buildRecords_getD testSmiles trainSmiles antibiotics testPreds distMatrix vecD
    morganD K i hi]
  simp only [mkRecord]
  rw [getD_map_of_lt _ _ r hr 0 default]

theorem neighbor_fields_aligned_witness :
    0 < (["A"] : List String).length ∧
      0 < (neighborIndices ([[(1 : ℚ), 3]].getD 0 []) 2).length ∧
      ((buildRecords ["A"] ["B", "C"] ["C"] [[2]] [[1, 3]] [[4, 5]] [[6, 7]] 2).getD 0
          default).details.getD 0 default
        = { train_smiles :=
              (["B", "C"] : List String).getD
                ((neighborIndices ([[(1 : ℚ), 3]].getD 0 []) 2).getD 0 0) ""
            train_is_antibiotic := (["C"] : List String).contains
              ((["B", "C"] : List String).getD
                ((neighborIndices ([[(1 : ℚ), 3]].getD 0 []) 2).getD 0 0) "")
            train_vec_cosine_dist :=
              ([[(4 : ℚ), 5]].getD 0 []).getD
                ((neighborIndices ([[(1 : ℚ), 3]].getD 0 []) 2).getD 0 0) 0
            train_morgan_jaccard_dist :=
              ([[(6 : ℚ), 7]].getD 0 []).getD
                ((neighborIndices ([[(1 : ℚ), 3]].getD 0 []) 2).getD 0 0) 0 } :=
  ⟨by decide, by decide,
    neighbor_fields_aligned ["A"] ["B", "C"] ["C"] [[2]] [[1, 3]] [[4, 5]] [[6, 7]] 2
      0 0 (by decide) (by decide)⟩

/-! ## Claim C10 -/

/-- **C10.**  The score stored in the record of query `i` — and used as the sort
key of the report — is exactly the first component `test_preds[i][0]` of the
model's prediction vector for that query; all later components are ignored:
replacing the prediction lists by any others with the same first components
leaves the entire run result unchanged. -/
theorem score_is_first_pred_component
    (testSmiles trainSmiles antibiotics : List String)
    (testPreds altPreds : List (List ℚ))
    (testMorgans trainMorgans testVecs trainVecs : List (List ℚ))
    (cosineDist : List ℚ → List ℚ → ℚ) (dm : String) (K : Int)
    (distMatrix vecD morganD : List (List ℚ))
    (i : ℕ) (hi : i < testSmiles.length) (p : ℚ) (rest : List ℚ)
    (hp : testPreds.getD i [] = p :: rest)
    (halt : ∀ j, (testPreds.getD j []).getD 0 0 = (altPreds.getD j []).getD 0 0) :
    ((buildRecords testSmiles trainSmiles antibiotics testPreds distMatrix vecD morganD
        K).getD i default).test_pred = p ∧
      find_similar_preds testSmiles trainSmiles antibiotics testPreds testMorgans
        trainMorgans testVecs trainVecs cosineDist dm K
      = find_similar_preds testSmiles trainSmiles antibiotics altPreds testMorgans
        trainMorgans testVecs trainVecs cosineDist dm K := by
  constructor
  · rw [buildRecords_getD testSmiles trainSmiles antibiotics testPreds distMatrix vecD
      morganD K i hi]
    simp only [mkRecord]
    rw [hp, List.getD_cons_zero]
  · have hb : ∀ D V M : List (List ℚ),
        buildRecords testSmiles trainSmiles antibiotics testPreds D V M K
          = buildRecords testSmiles trainSmiles antibiotics altPreds D V M K := by
      intro D V M
      unfold buildRecords
      apply List.map_congr_left
      intro a _
      unfold mkRecord
      rw [halt a]
    rcases hcm : cdist testMorgans trainMorgans scipyJaccard with e | M
    · rw [find_eq_error_morgan testSmiles trainSmiles antibiotics testPreds testMorgans
        trainMorgans testVecs trainVecs cosineDist dm K e hcm,
        find_eq_error_morgan testSmiles trainSmiles antibiotics altPreds testMorgans
        trainMorgans testVecs trainVecs cosineDist dm K e hcm]
    · rcases hcv : cdist testVecs trainVecs cosineDist with e | V
      · rw [find_eq_error_vec testSmiles trainSmiles antibiotics testPreds testMorgans
          trainMorgans testVecs trainVecs cosineDist dm K M e hcm hcv,
          find_eq_error_vec testSmiles trainSmiles antibiotics altPreds testMorgans
          trainMorgans testVecs trainVecs cosineDist dm K M e hcm hcv]
      · rw [find_eq_afterDistances testSmiles trainSmiles antibiotics testPreds testMorgans
          trainMorgans testVecs trainVecs cosineDist dm K M V hcm hcv,
          find_eq_afterDistances testSmiles trainSmiles antibiotics altPreds testMorgans
          trainMorgans testVecs trainVecs cosineDist dm K M V hcm hcv]
        unfold afterDistances
        split
        · rw [hb (if dm = "vec" then V else M) V M]
        · rfl

theorem score_is_first_pred_component_witness :
    0 < (["A"] : List String).length ∧
      ([[(2 : ℚ), 7]] : List (List ℚ)).getD 0 [] = 2 :: [7] ∧
      (∀ j, (([[(2 : ℚ), 7]] : List (List ℚ)).getD j []).getD 0 0
        = (([[(2 : ℚ), 9]] : List (List ℚ)).getD j []).getD 0 0) ∧
      (((buildRecords ["A"] ["B"] [] [[2, 7]] [[1]] [[1]] [[1]] 1).getD 0
          default).test_pred = 2 ∧
        find_similar_preds ["A"] ["B"] [] [[2, 7]] [[1]] [[1]] [[1]] [[1]]
          (fun _ _ => 0) "vec" 1
        = find_similar_preds ["A"] ["B"] [] [[2, 9]] [[1]] [[1]] [[1]] [[1]]
          (fun _ _ => 0) "vec" 1) :=
  ⟨by decide, rfl, fun j => by cases j <;> rfl,
    score_is_first_pred_component ["A"] ["B"] [] [[2, 7]] [[2, 9]] [[1]] [[1]] [[1]]
      [[1]] (fun _ _ => 0) "vec" 1 [[1]] [[1]] [[1]] 0 (by decide) 2 [7] rfl
      fun j => by cases j <;> rfl⟩

/-! ## Claim C6 -/

theorem filter_orderedInsert_pos (p : NeighborRecord → Bool) (a : NeighborRecord)
    (hpa : p a = true) (hall : ∀ b, p b = true → scoreGe a b) :
    ∀ l : List NeighborRecord, (l.orderedInsert scoreGe a).filter p = a :: l.filter p
  | [] => by simp [hpa]
  | c :: cs => by
    simp only [List.orderedInsert]
    split
    · rw [List.filter_cons_of_pos hpa]
    · rename_i hneg
      have hpc : p c = false := by
        cases hc : p c
        · rfl
        · exact absurd (hall c hc) hneg
      rw [List.filter_cons_of_neg (by simp [hpc]),
        filter_orderedInsert_pos p a hpa hall cs,
        List.filter_cons_of_neg (by simp [hpc])]

theorem filter_orderedInsert_neg (p : NeighborRecord → Bool) (a : NeighborRecord)
    (hpa : p a = false) :
    ∀ l : List NeighborRecord, (l.orderedInsert scoreGe a).filter p = l.filter p
  | [] => by simp [hpa]
  | c :: cs => by
    simp only [List.orderedInsert]
    split
    · rw [List.filter_cons_of_neg (by simp [hpa])]
    · rw [List.filter_cons, List.filter_cons, filter_orderedInsert_neg p a hpa cs]

theorem pySortDesc_filter (q : ℚ) :
    ∀ recs : List NeighborRecord,
      ((recs.insertionSort scoreGe).filter fun rec => decide (rec.test_pred = q))
        = recs.filter fun rec => decide (rec.test_pred = q)
  | [] => rfl
  | a :: l => by
    simp only [List.insertionSort]
    by_cases hpa : a.test_pred = q
    · have hall : ∀ b : NeighborRecord, decide (b.test_pred = q) = true → scoreGe a b := by
        intro b hb
        have h1 : b.test_pred = q := of_decide_eq_true hb
        show b.test_pred ≤ a.test_pred
        rw [h1, hpa]
      rw [filter_orderedInsert_pos _ a (by simp [hpa]) hall (l.insertionSort scoreGe),
        pySortDesc_filter q l, List.filter_cons_of_pos (by simp [hpa])]
    · rw [filter_orderedInsert_neg _ a (by simp [hpa]) (l.insertionSort scoreGe),
        pySortDesc_filter q l, List.filter_cons_of_neg (by simp [hpa])]

/-- **C6.**  When the pipeline succeeds, the report is sorted by score descending
(every adjacent pair satisfies `record[i].score ≥ record[i+1].score`, stated as
pairwise `scoreGe`), and records with equal score keep their relative order from
the query set: for every score value `q`, the sub-sequence of report records with
score `q` equals the corresponding sub-sequence of the records in original query
order (Python's `list.sort` is stable, also with `reverse=True`). -/
theorem report_sorted_desc_stable
    (testSmiles trainSmiles antibiotics : List String) (testPreds : List (List ℚ))
    (testMorgans trainMorgans testVecs trainVecs : List (List ℚ))
    (cosineDist : List ℚ → List ℚ → ℚ) (dm : String) (K : Int)
    (M V : List (List ℚ)) (out : List NeighborRecord)
    (hM : cdist testMorgans trainMorgans scipyJaccard = Except.ok M)
    (hV : cdist testVecs trainVecs cosineDist = Except.ok V)
    (hok : (find_similar_preds testSmiles trainSmiles antibiotics testPreds testMorgans
        trainMorgans testVecs trainVecs cosineDist dm K).result = Except.ok out) :
    List.Pairwise scoreGe out ∧
      ∀ q : ℚ, (out.filter fun rec => decide (rec.test_pred = q))
        = ((buildRecords testSmiles trainSmiles antibiotics testPreds
            (if dm = "vec" then V else M) V M K).filter
              fun rec => decide (rec.test_pred = q)) := by
  have hout : out = pySortDesc (buildRecords testSmiles trainSmiles antibiotics
      testPreds (if dm = "vec" then V else M) V M K) := by
    rw [find_eq_afterDistances testSmiles trainSmiles antibiotics testPreds testMorgans
      trainMorgans testVecs trainVecs cosineDist dm K M V hM hV] at hok
    unfold afterDistances at hok
    by_cases hdm : dm = "vec" ∨ dm = "morgan"
    · rw [if_pos hdm] at hok
      rcases hsp : pySortDesc (buildRecords testSmiles trainSmiles antibiotics testPreds
        (if dm = "vec" then V else M) V M K) with _ | ⟨r, rs⟩
      · rw [hsp] at hok
        simp at hok
      · rw [hsp] at hok
        simp only [Except.ok.injEq] at hok
        rw [← hok, ← hsp]
    · rw [if_neg hdm] at hok
      simp at hok
  subst hout
  constructor
  · exact sorted_insertionSort scoreGe _
  · intro q
    exact pySortDesc_filter q _

theorem report_sorted_desc_stable_witness :
    cdist [[(1 : ℚ), 0]] [[(0 : ℚ), 1]] scipyJaccard
        = Except.ok [[scipyJaccard [(1 : ℚ), 0] [(0 : ℚ), 1]]] ∧
      cdist [[(1 : ℚ)]] [[(1 : ℚ)]] (fun _ _ => (0 : ℚ)) = Except.ok [[0]] ∧
      (find_similar_preds ["A"] ["B"] [] [[2]] [[1, 0]] [[0, 1]] [[1]] [[1]]
          (fun _ _ => (0 : ℚ)) "vec" 1).result
        = Except.ok (pySortDesc (buildRecords ["A"] ["B"] [] [[2]]
            (if ("vec" : String) = "vec" then [[(0 : ℚ)]]
             else [[scipyJaccard [(1 : ℚ), 0] [(0 : ℚ), 1]]])
            [[(0 : ℚ)]] [[scipyJaccard [(1 : ℚ), 0] [(0 : ℚ), 1]]] 1)) ∧
      (List.Pairwise scoreGe (pySortDesc (buildRecords ["A"] ["B"] [] [[2]]
          (if ("vec" : String) = "vec" then [[(0 : ℚ)]]
           else [[scipyJaccard [(1 : ℚ), 0] [(0 : ℚ), 1]]])
          [[(0 : ℚ)]] [[scipyJaccard [(1 : ℚ), 0] [(0 : ℚ), 1]]] 1)) ∧
        ∀ q : ℚ, ((pySortDesc (buildRecords ["A"] ["B"] [] [[2]]
            (if ("vec" : String) = "vec" then [[(0 : ℚ)]]
             else [[scipyJaccard [(1 : ℚ), 0] [(0 : ℚ), 1]]])
            [[(0 : ℚ)]] [[scipyJaccard [(1 : ℚ), 0] [(0 : ℚ), 1]]] 1)).filter
              fun rec => decide (rec.test_pred = q))
          = ((buildRecords ["A"] ["B"] [] [[2]]
              (if ("vec" : String) = "vec" then [[(0 : ℚ)]]
               else [[scipyJaccard [(1 : ℚ), 0] [(0 : ℚ), 1]]])
              [[(0 : ℚ)]] [[scipyJaccard [(1 : ℚ), 0] [(0 : ℚ), 1]]] 1).filter
                fun rec => decide (rec.test_pred = q))) :=
  ⟨rfl, rfl, rfl,
    report_sorted_desc_stable ["A"] ["B"] [] [[2]] [[1, 0]] [[0, 1]] [[1]] [[1]]
      (fun _ _ => (0 : ℚ)) "vec" 1 [[scipyJaccard [(1 : ℚ), 0] [(0 : ℚ), 1]]] [[0]]
      (pySortDesc (buildRecords ["A"] ["B"] [] [[2]]
        (if ("vec" : String) = "vec" then [[(0 : ℚ)]]
         else [[scipyJaccard [(1 : ℚ), 0] [(0 : ℚ), 1]]])
        [[(0 : ℚ)]] [[scipyJaccard [(1 : ℚ), 0] [(0 : ℚ), 1]]] 1)) rfl rfl rfl⟩

end FindSimilar
